import Mathlib

/-
Verification of the COVID-19 global tracker pipeline (src/Covid.py).

The script is a linear pandas/matplotlib pipeline: download a CSV, clean it
(date conversion, dropna on identifying columns, forward-fill then zero-fill
of the four numeric columns), filter to 2025, compute descriptive statistics
and group-by aggregates, and render four chart images.  Each of the three
phases (loading, analysis, visualization) is wrapped in a try/except guard.

The embedding below models a data frame as a list of rows.  Dates are
modelled as day numbers (days since 1970-01-01); pd.to_datetime preserves
the date value on well-formed input, so the conversion is the identity here.
Missing values (NaN / NaT) are modelled with Option.  All rational
arithmetic (means, variance, quantiles) is exact over Rat.
-/

set_option maxRecDepth 100000

namespace Covid

/-- One row of WHO-COVID-19-global-data.csv.  Fields that can be missing
in the raw data are Option-valued. -/
structure Row where
  Date_reported : Option Int
  Country_code : Option String
  Country : String
  WHO_region : String
  New_cases : Option Int
  New_deaths : Option Int
  Cumulative_cases : Option Int
  Cumulative_deaths : Option Int
deriving DecidableEq, Repr

instance : Inhabited Row := ⟨⟨none, none, "", "", none, none, none, none⟩⟩

/-- 2025-01-01 as days since 1970-01-01 (the cutoff constant of lines 63 and 91). -/
def cutoff2025 : Int := 20089

/-- The four numeric columns filled by the Task 1 loop (line 43). -/
inductive NumField
  | New_cases
  | New_deaths
  | Cumulative_cases
  | Cumulative_deaths
deriving DecidableEq, Repr, Fintype

def NumField.get : NumField → Row → Option Int
  | .New_cases => Row.New_cases
  | .New_deaths => Row.New_deaths
  | .Cumulative_cases => Row.Cumulative_cases
  | .Cumulative_deaths => Row.Cumulative_deaths

def NumField.set : NumField → Row → Int → Row
  | .New_cases, r, v => { r with New_cases := some v }
  | .New_deaths, r, v => { r with New_deaths := some v }
  | .Cumulative_cases, r, v => { r with Cumulative_cases := some v }
  | .Cumulative_deaths, r, v => { r with Cumulative_deaths := some v }

/-- Line 42: df.dropna(subset=['Date_reported', 'Country_code']). -/
def dropMissingKeys (t : List Row) : List Row :=
  t.filter (fun r => r.Date_reported.isSome && r.Country_code.isSome)

/-- Column-wise forward fill, the semantics of fillna(method='ffill') on one
column: each missing entry receives the last valid value seen before it
(the carry starts out empty). -/
def ffillCol (last : Option Int) : List (Option Int) → List (Option Int)
  | [] => []
  | v :: vs =>
    match v with
    | some x => some x :: ffillCol (some x) vs
    | none => last :: ffillCol last vs

/-- Lines 45-46 for a single column: forward fill, then fill the remaining
missing entries with 0, and write the result back into the rows. -/
def fillField (f : NumField) (t : List Row) : List Row :=
  List.zipWith f.set t ((ffillCol none (t.map f.get)).map (fun o => o.getD 0))

/-- The Task 1 fill loop (lines 43-46) over the four numeric columns, in
source order: Cumulative_cases, Cumulative_deaths, New_cases, New_deaths. -/
def fillNumeric (t : List Row) : List Row :=
  fillField .New_deaths
    (fillField .New_cases
      (fillField .Cumulative_deaths
        (fillField .Cumulative_cases t)))

/-- The whole Task 1 cleaning block (lines 40-46): date conversion (identity
on day numbers), drop of rows missing Date_reported or Country_code, then
the per-column ffill/zero-fill loop. -/
def cleanData (t : List Row) : List Row :=
  fillNumeric (dropMissingKeys t)

/-- The row predicate of df['Date_reported'] >= '2025-01-01' (lines 63
and 91): a missing date compares false, a present date is compared to the
cutoff. -/
def after2025 (r : Row) : Bool :=
  match r.Date_reported with
  | some d => decide (cutoff2025 ≤ d)
  | none => false

/-- Line 63: recent_df = df[df['Date_reported'] >= '2025-01-01']. -/
def recent_df (t : List Row) : List Row :=
  t.filter after2025

/-- Line 91: viz_df = df[df['Date_reported'] >= '2025-01-01'].copy(),
the same filter expression as recent_df. -/
def viz_df (t : List Row) : List Row :=
  t.filter after2025

/-- The valid (non-missing) entries of one numeric column, as pandas
aggregations see them (NaN entries are skipped). -/
def colValues (f : Row → Option Int) (t : List Row) : List Int :=
  t.filterMap f

/-- pandas Series.mean over one column: sum of the valid entries divided by
their count (exact over Rat; the empty mean, NaN in pandas, is 0 here). -/
def colMean (f : Row → Option Int) (t : List Row) : ℚ :=
  ((colValues f t).sum : ℚ) / ((colValues f t).length : ℚ)

/-- The WHO_region group keys of a table (the distinct regions). -/
def regionKeys (t : List Row) : List String :=
  (t.map Row.WHO_region).dedup

/-- The rows of one WHO_region group. -/
def groupByRegion (t : List Row) (g : String) : List Row :=
  t.filter (fun r => r.WHO_region == g)

/-- Per-region mean of New_cases (line 69, the 'mean' aggregate). -/
def regionMean (t : List Row) (g : String) : ℚ :=
  colMean Row.New_cases (groupByRegion t g)

/-- Per-region sum of New_cases (line 69, the 'sum' aggregate). -/
def regionSum (t : List Row) (g : String) : Int :=
  (colValues Row.New_cases (groupByRegion t g)).sum

/-- Line 69: recent_df.groupby('WHO_region')['New_cases'].agg(['mean','sum'])
(the .round(2) of the source only affects the printed rendering). -/
def group_means (t : List Row) : List (String × ℚ × Int) :=
  (regionKeys t).map (fun g => (g, regionMean t g, regionSum t g))

/-- The Country group keys of a table (the distinct countries). -/
def countryKeys (t : List Row) : List String :=
  (t.map Row.Country).dedup

/-- The rows of one Country group. -/
def groupByCountry (t : List Row) (c : String) : List Row :=
  t.filter (fun r => r.Country == c)

/-- Per-country mean of Cumulative_deaths (line 74). -/
def countryMeans (t : List Row) : List (String × ℚ) :=
  (countryKeys t).map (fun c => (c, colMean Row.Cumulative_deaths (groupByCountry t c)))

/-- Descending comparison on (country, mean) pairs, as used by
sort_values(ascending=False). -/
def cdGE (a b : String × ℚ) : Prop := b.2 ≤ a.2

instance : DecidableRel cdGE := fun a b => inferInstanceAs (Decidable (b.2 ≤ a.2))

instance : IsTotal (String × ℚ) cdGE := ⟨fun a b => le_total b.2 a.2⟩

instance : IsTrans (String × ℚ) cdGE := ⟨fun _ _ _ h1 h2 => le_trans h2 h1⟩

/-- Line 74 before .head(10): the per-country means sorted by descending mean. -/
def countryMeansSorted (t : List Row) : List (String × ℚ) :=
  List.insertionSort cdGE (countryMeans t)

/-- Line 74: mean Cumulative_deaths by Country, sorted descending, head(10). -/
def country_deaths (t : List Row) : List (String × ℚ) :=
  (countryMeansSorted t).take 10

/-- pandas quantile with linear interpolation on the sorted valid entries
(the interpolation used by describe's 25%/50%/75% rows); exact over Rat. -/
def quantile (xs : List Int) (q : ℚ) : ℚ :=
  let s := List.insertionSort (fun a b : Int => a ≤ b) xs
  match s.length with
  | 0 => 0
  | Nat.succ m =>
    let h : ℚ := (m : ℚ) * q
    let k : Nat := (⌊h⌋).toNat
    let frac : ℚ := h - (k : ℚ)
    let a : ℚ := ((s.getD k 0 : Int) : ℚ)
    let b : ℚ := ((s.getD (min (k + 1) m) 0 : Int) : ℚ)
    a + frac * (b - a)

/-- The describe() row for one column: count, mean, variance (std is its
square root), min, max and the three quartiles.  Degenerate cases that are
NaN in pandas (mean/std of an empty column, std of a single value) are 0. -/
structure ColStats where
  count : Nat
  mean : ℚ
  variance : ℚ
  least : Option Int
  greatest : Option Int
  q25 : ℚ
  q50 : ℚ
  q75 : ℚ
deriving DecidableEq, Repr

def colStats (f : Row → Option Int) (t : List Row) : ColStats :=
  let vs := colValues f t
  let n := vs.length
  let mean : ℚ := ((vs.sum : Int) : ℚ) / (n : ℚ)
  { count := n
    mean := mean
    variance := (vs.map (fun x => (((x : Int) : ℚ) - mean) ^ 2)).sum / ((n : ℚ) - 1)
    least := vs.min?
    greatest := vs.max?
    q25 := quantile vs (1 / 4)
    q50 := quantile vs (1 / 2)
    q75 := quantile vs (3 / 4) }

/-- Everything the Task 2 analysis block prints: the describe() statistics
of the four numeric columns (line 65), the per-region mean/sum table
(line 69) and the top-10 country list (line 74). -/
structure AnalysisOut where
  statsNewCases : ColStats
  statsNewDeaths : ColStats
  statsCumCases : ColStats
  statsCumDeaths : ColStats
  regionTable : List (String × ℚ × Int)
  topCountries : List (String × ℚ)
deriving DecidableEq, Repr

/-- The Task 2 analysis block (lines 61-75) as a function of the cleaned
frame: filter to 2025, then describe and the two group-bys. -/
def runAnalysis (df : List Row) : AnalysisOut :=
  let recent := recent_df df
  { statsNewCases := colStats Row.New_cases recent
    statsNewDeaths := colStats Row.New_deaths recent
    statsCumCases := colStats Row.Cumulative_cases recent
    statsCumDeaths := colStats Row.Cumulative_deaths recent
    regionTable := group_means recent
    topCountries := country_deaths recent }

/-- DataFrame.sample(n) without replacement: fails (ValueError) when n
exceeds the population size, otherwise draws n rows steered by the random
stream rng (the script does not seed this stream). -/
def sampleRows (rng : List Nat) (n : Nat) (t : List Row) : Option (List Row) :=
  if n ≤ t.length then
    some ((List.range n).map (fun i => t.getD ((rng.getD i 0 + i) % t.length) default))
  else none

/-- The four chart steps of Task 3, in source order. -/
inductive PlotStep
  | line
  | bar
  | hist
  | scatter
deriving DecidableEq, Repr

/-- The file each step saves (lines 104, 117, 129, 140). -/
def stepFile : PlotStep → String
  | .line => "global_cases_line.png"
  | .bar => "region_cases_bar.png"
  | .hist => "deaths_histogram.png"
  | .scatter => "cases_deaths_scatter.png"

/-- Whether a chart step completes.  The line, bar and histogram steps plot
whatever data they receive; the scatter step first evaluates
viz_df.sample(1000) (line 134), which raises ValueError when the filtered
table has fewer than 1000 rows, before anything is saved. -/
def stepOk (t : List Row) (rng : List Nat) : PlotStep → Bool
  | .scatter => (sampleRows rng 1000 t).isSome
  | _ => true

/-- Sequential execution of plot steps inside the Task 3 try block: each
completed step saves its file; the first raising step aborts the rest (the
exception propagates to the except handler on line 149). -/
def plotsUntilError (t : List Row) (rng : List Nat) : List PlotStep → List String
  | [] => []
  | s :: ss =>
    if stepOk t rng s then stepFile s :: plotsUntilError t rng ss
    else []

def vizSteps : List PlotStep := [.line, .bar, .hist, .scatter]

/-- The image files a run of the Task 3 visualization block leaves on disk,
as a function of the cleaned frame and the random stream. -/
def vizFiles (df : List Row) (rng : List Nat) : List String :=
  plotsUntilError (viz_df df) rng vizSteps

/-- One full downstream run on a cleaned frame: the analysis outputs and
the scatter-plot sample (the only randomness-dependent value). -/
def runPipeline (df : List Row) (rng : List Nat) : AnalysisOut × Option (List Row) :=
  (runAnalysis df, sampleRows rng 1000 (viz_df df))

/-- The Python exceptions the script can raise.  All three classes derive
from Exception in Python's hierarchy. -/
inductive PyExc
  | requestException
  | nameError
  | valueError
deriving DecidableEq, Repr

/-- Matching of 'except requests.exceptions.RequestException' (line 53). -/
def isRequestException : PyExc → Bool
  | .requestException => true
  | _ => false

/-- Matching of 'except Exception' (lines 57, 85, 149): every modelled
exception derives from Exception. -/
def isException : PyExc → Bool := fun _ => true

/-- Outcome of one guarded zone: the value the body produced if it
completed, the index of the except clause that caught its exception, and
any exception no clause matched. -/
structure ZoneOutcome (α : Type) where
  result : Option α
  caughtBy : Option Nat
  uncaught : Option PyExc
deriving DecidableEq, Repr

/-- A try block with a list of except clauses: a raised exception is
dispatched to the first clause whose class matches, and escapes the zone
only when no clause matches. -/
def runZone (handlers : List (PyExc → Bool)) (body : Except PyExc α) : ZoneOutcome α :=
  match body with
  | .ok a => ⟨some a, none, none⟩
  | .error e =>
    match handlers.findIdx? (fun h => h e) with
    | some i => ⟨none, some i, none⟩
    | none => ⟨none, none, some e⟩

/-- Body of the Task 1 try block: acquisition (requests.get /
raise_for_status / read_csv, summarized as an Except value) followed by the
cleaning block.  When acquisition raises, df is never assigned. -/
def task1Body (acq : Except PyExc (List Row)) : Except PyExc (List Row) :=
  match acq with
  | .error e => .error e
  | .ok raw => .ok (cleanData raw)

/-- Body of the Task 2 try block.  When df was never assigned, line 63
raises NameError; otherwise the analysis runs. -/
def task2Body (env : Option (List Row)) : Except PyExc AnalysisOut :=
  match env with
  | none => .error .nameError
  | some df => .ok (runAnalysis df)

/-- Body of the Task 3 try block.  When df was never assigned, line 91
raises NameError; otherwise the four plot steps run, and the sample call of
line 134 raises ValueError on a window smaller than 1000 rows. -/
def task3Body (env : Option (List Row)) (rng : List Nat) : Except PyExc (List String) :=
  match env with
  | none => .error .nameError
  | some df =>
    if (sampleRows rng 1000 (viz_df df)).isSome then .ok (vizFiles df rng)
    else .error .valueError

/-- The observable outcome of one script run: whether df ended up defined,
and the outcome of each guarded zone. -/
structure ScriptRun where
  dfDefined : Bool
  task1 : ZoneOutcome (List Row)
  task2 : ZoneOutcome AnalysisOut
  task3 : ZoneOutcome (List String)
deriving DecidableEq, Repr

/-- The whole script: Task 1 guarded by [RequestException, Exception]
(lines 53-58), Tasks 2 and 3 each guarded by [Exception] (lines 85, 149).
A zone failure never stops the script; the next zone still runs. -/
def runScript (acq : Except PyExc (List Row)) (rng : List Nat) : ScriptRun :=
  let z1 := runZone [isRequestException, isException] (task1Body acq)
  let env := z1.result
  let z2 := runZone [isException] (task2Body env)
  let z3 := runZone [isException] (task3Body env rng)
  ⟨env.isSome, z1, z2, z3⟩

/-! ### Concrete tables used by witnesses and counterexamples -/

def mkRow (d : Option Int) (cc : Option String) (c reg : String)
    (nc nd cumc cumd : Option Int) : Row :=
  ⟨d, cc, c, reg, nc, nd, cumc, cumd⟩

/-- A small raw table: a complete row, a row missing its date, a row with
numeric gaps, and a row missing its country code. -/
def tWit : List Row := [
  mkRow (some 20100) (some "KE") "Kenya" "AFRO" (some 5) (some 1) (some 10) (some 2),
  mkRow none (some "KE") "Kenya" "AFRO" (some 7) none none none,
  mkRow (some 20101) (some "KE") "Kenya" "AFRO" none (some 3) none (some 4),
  mkRow (some 20102) none "Ghana" "AFRO" (some 9) none none none]

/-- A table whose first kept row has a leading numeric gap. -/
def tZero : List Row := [
  mkRow (some 20100) (some "UG") "Uganda" "AFRO" none (some 1) (some 3) (some 0)]

/-- A well-keyed table carrying a negative New_cases value. -/
def tNeg : List Row := [
  mkRow (some 20100) (some "KE") "Kenya" "AFRO" (some (-1)) (some 0) (some 0) (some 0)]

/-- Two countries, Kenya with mean cumulative deaths 5 and Uganda with 2. -/
def tCountries : List Row := [
  mkRow (some 20100) (some "KE") "Kenya" "AFRO" (some 1) (some 0) (some 1) (some 4),
  mkRow (some 20101) (some "KE") "Kenya" "AFRO" (some 1) (some 0) (some 1) (some 6),
  mkRow (some 20100) (some "UG") "Uganda" "AFRO" (some 1) (some 0) (some 1) (some 2)]

/-- Two regions with differing sizes and means. -/
def tRegions : List Row := [
  mkRow (some 20100) (some "KE") "Kenya" "AFRO" (some 4) (some 0) (some 4) (some 0),
  mkRow (some 20100) (some "FR") "France" "EURO" (some 10) (some 0) (some 10) (some 0),
  mkRow (some 20101) (some "KE") "Kenya" "AFRO" (some 6) (some 0) (some 10) (some 0)]

/-- A complete row dated in 2025. -/
def rowKE : Row :=
  mkRow (some 20100) (some "KE") "Kenya" "AFRO" (some 5) (some 1) (some 10) (some 2)

/-- A second complete row dated in 2025, distinct from rowKE. -/
def rowUG : Row :=
  mkRow (some 20100) (some "UG") "Uganda" "AFRO" (some 3) (some 0) (some 8) (some 1)

/-- A cleaned frame whose 2025 window has exactly 1000 rows. -/
def dfBig : List Row := rowKE :: List.replicate 999 rowUG

/-- A cleaned frame whose 2025 window has a single row (fewer than the
1000 rows line 134 samples). -/
def dfSmall : List Row := [rowKE]

/-! ### Helper lemmas about the cleaning stage -/

theorem get_set_same (f : NumField) (r : Row) (v : Int) : f.get (f.set r v) = some v := by
  cases f <;> rfl

theorem get_set_ne (f f' : NumField) (h : f ≠ f') (r : Row) (v : Int) :
    f.get (f'.set r v) = f.get r := by
  cases f <;> cases f' <;> first | rfl | exact absurd rfl h

theorem set_frame (f : NumField) (r : Row) (v : Int) :
    (f.set r v).Date_reported = r.Date_reported ∧
    (f.set r v).Country_code = r.Country_code ∧
    (f.set r v).Country = r.Country ∧
    (f.set r v).WHO_region = r.WHO_region := by
  cases f <;> exact ⟨rfl, rfl, rfl, rfl⟩

theorem zipWith_const_right {α β γ : Type} (k : β → γ) :
    ∀ (as : List α) (bs : List β), as.length = bs.length →
      List.zipWith (fun _ b => k b) as bs = bs.map k := by
  intro as
  induction as with
  | nil =>
    intro bs h
    cases bs with
    | nil => rfl
    | cons b bs => simp at h
  | cons a as ih =>
    intro bs h
    cases bs with
    | nil => simp at h
    | cons b bs =>
      simp only [List.zipWith_cons_cons, List.map_cons]
      rw [ih bs (by simpa using h)]

theorem zipWith_const_left {α β γ : Type} (k : α → γ) :
    ∀ (as : List α) (bs : List β), bs.length = as.length →
      List.zipWith (fun a _ => k a) as bs = as.map k := by
  intro as
  induction as with
  | nil =>
    intro bs h
    cases bs with
    | nil => rfl
    | cons b bs => simp at h
  | cons a as ih =>
    intro bs h
    cases bs with
    | nil => simp at h
    | cons b bs =>
      simp only [List.zipWith_cons_cons, List.map_cons]
      rw [ih bs (by simpa using h)]

theorem ffill_length (last : Option Int) (vs : List (Option Int)) :
    (ffillCol last vs).length = vs.length := by
  induction vs generalizing last with
  | nil => rfl
  | cons v vs ih => cases v <;> simp [ffillCol, ih]

theorem map_fillField_same (f : NumField) (t : List Row) :
    (fillField f t).map f.get
      = (ffillCol none (t.map f.get)).map (fun o => some (o.getD 0)) := by
  have hfun : (fun (r : Row) (v : Int) => f.get (f.set r v)) = fun _ v => some v :=
    funext fun r => funext fun v => get_set_same f r v
  have hlen : t.length = ((ffillCol none (t.map f.get)).map (fun o => o.getD 0)).length := by
    simp [ffill_length]
  calc (fillField f t).map f.get
      = List.zipWith (fun r v => f.get (f.set r v)) t
          ((ffillCol none (t.map f.get)).map (fun o => o.getD 0)) := by
        simp [fillField, List.map_zipWith]
    _ = ((ffillCol none (t.map f.get)).map (fun o => o.getD 0)).map some := by
        rw [hfun]; exact zipWith_const_right some _ _ hlen
    _ = (ffillCol none (t.map f.get)).map (fun o => some (o.getD 0)) := by
        rw [List.map_map]; rfl

theorem map_fillField_frame {α : Type} (f : NumField) (h : Row → α)
    (hp : ∀ r v, h (f.set r v) = h r) (t : List Row) :
    (fillField f t).map h = t.map h := by
  have hfun : (fun (r : Row) (v : Int) => h (f.set r v)) = fun r _ => h r :=
    funext fun r => funext fun v => hp r v
  have hlen : ((ffillCol none (t.map f.get)).map (fun o => o.getD 0)).length = t.length := by
    simp [ffill_length]
  calc (fillField f t).map h
      = List.zipWith (fun r v => h (f.set r v)) t
          ((ffillCol none (t.map f.get)).map (fun o => o.getD 0)) := by
        simp [fillField, List.map_zipWith]
    _ = t.map h := by rw [hfun]; exact zipWith_const_left h _ _ hlen

theorem map_fillField_get_ne (f f' : NumField) (h : f ≠ f') (t : List Row) :
    (fillField f' t).map f.get = t.map f.get :=
  map_fillField_frame f' f.get (fun r v => get_set_ne f f' h r v) t

theorem map_fillNumeric (f : NumField) (t : List Row) :
    (fillNumeric t).map f.get
      = (ffillCol none (t.map f.get)).map (fun o => some (o.getD 0)) := by
  cases f with
  | New_cases =>
    show (fillField .New_deaths (fillField .New_cases (fillField .Cumulative_deaths
      (fillField .Cumulative_cases t)))).map NumField.New_cases.get = _
    rw [map_fillField_get_ne .New_cases .New_deaths (by decide),
        map_fillField_same,
        map_fillField_get_ne .New_cases .Cumulative_deaths (by decide),
        map_fillField_get_ne .New_cases .Cumulative_cases (by decide)]
  | New_deaths =>
    show (fillField .New_deaths (fillField .New_cases (fillField .Cumulative_deaths
      (fillField .Cumulative_cases t)))).map NumField.New_deaths.get = _
    rw [map_fillField_same,
        map_fillField_get_ne .New_deaths .New_cases (by decide),
        map_fillField_get_ne .New_deaths .Cumulative_deaths (by decide),
        map_fillField_get_ne .New_deaths .Cumulative_cases (by decide)]
  | Cumulative_cases =>
    show (fillField .New_deaths (fillField .New_cases (fillField .Cumulative_deaths
      (fillField .Cumulative_cases t)))).map NumField.Cumulative_cases.get = _
    rw [map_fillField_get_ne .Cumulative_cases .New_deaths (by decide),
        map_fillField_get_ne .Cumulative_cases .New_cases (by decide),
        map_fillField_get_ne .Cumulative_cases .Cumulative_deaths (by decide),
        map_fillField_same]
  | Cumulative_deaths =>
    show (fillField .New_deaths (fillField .New_cases (fillField .Cumulative_deaths
      (fillField .Cumulative_cases t)))).map NumField.Cumulative_deaths.get = _
    rw [map_fillField_get_ne .Cumulative_deaths .New_deaths (by decide),
        map_fillField_get_ne .Cumulative_deaths .New_cases (by decide),
        map_fillField_same,
        map_fillField_get_ne .Cumulative_deaths .Cumulative_cases (by decide)]

theorem map_cleanData (f : NumField) (t : List Row) :
    (cleanData t).map f.get
      = (ffillCol none ((dropMissingKeys t).map f.get)).map (fun o => some (o.getD 0)) :=
  map_fillNumeric f (dropMissingKeys t)

theorem map_fillNumeric_frame {α : Type} (h : Row → α)
    (hp : ∀ f r v, h (NumField.set f r v) = h r) (t : List Row) :
    (fillNumeric t).map h = t.map h := by
  show (fillField .New_deaths (fillField .New_cases (fillField .Cumulative_deaths
    (fillField .Cumulative_cases t)))).map h = _
  rw [map_fillField_frame _ h (hp _), map_fillField_frame _ h (hp _),
      map_fillField_frame _ h (hp _), map_fillField_frame _ h (hp _)]

theorem map_cleanData_date (t : List Row) :
    (cleanData t).map Row.Date_reported = (dropMissingKeys t).map Row.Date_reported :=
  map_fillNumeric_frame Row.Date_reported (fun f r v => (set_frame f r v).1) _

theorem map_cleanData_code (t : List Row) :
    (cleanData t).map Row.Country_code = (dropMissingKeys t).map Row.Country_code :=
  map_fillNumeric_frame Row.Country_code (fun f r v => (set_frame f r v).2.1) _

theorem map_cleanData_country (t : List Row) :
    (cleanData t).map Row.Country = (dropMissingKeys t).map Row.Country :=
  map_fillNumeric_frame Row.Country (fun f r v => (set_frame f r v).2.2.1) _

theorem map_cleanData_region (t : List Row) :
    (cleanData t).map Row.WHO_region = (dropMissingKeys t).map Row.WHO_region :=
  map_fillNumeric_frame Row.WHO_region (fun f r v => (set_frame f r v).2.2.2) _

theorem fillField_length (f : NumField) (t : List Row) :
    (fillField f t).length = t.length := by
  simp [fillField, List.length_zipWith, ffill_length]

theorem fillNumeric_length (t : List Row) : (fillNumeric t).length = t.length := by
  show (fillField .New_deaths (fillField .New_cases (fillField .Cumulative_deaths
    (fillField .Cumulative_cases t)))).length = _
  rw [fillField_length, fillField_length, fillField_length, fillField_length]

theorem cleanData_length (t : List Row) :
    (cleanData t).length = (dropMissingKeys t).length :=
  fillNumeric_length _

theorem getD_map_lt {α β : Type} (g : α → β) (l : List α) (i : Nat)
    (h : i < l.length) (d : β) (e : α) :
    (l.map g).getD i d = g (l.getD i e) := by
  rw [List.getD_eq_getElem _ _ (by simpa using h), List.getD_eq_getElem _ _ h,
      List.getElem_map]

theorem ffill_getD_some : ∀ (vs : List (Option Int)) (last : Option Int) (i : Nat) (x : Int),
    vs.getD i none = some x → (ffillCol last vs).getD i none = some x := by
  intro vs
  induction vs with
  | nil => intro last i x h; simp [List.getD] at h
  | cons v vs ih =>
    intro last i x h
    cases i with
    | zero =>
      rw [List.getD_cons_zero] at h
      subst h
      simp [ffillCol]
    | succ i =>
      rw [List.getD_cons_succ] at h
      cases v <;> simp only [ffillCol, List.getD_cons_succ] <;> exact ih _ i x h

theorem ffill_getD_step : ∀ (vs : List (Option Int)) (last : Option Int) (i : Nat),
    i + 1 < vs.length → vs.getD (i + 1) none = none →
    (ffillCol last vs).getD (i + 1) none = (ffillCol last vs).getD i none := by
  intro vs
  induction vs with
  | nil => intro last i h _; simp at h
  | cons v vs ih =>
    intro last i hlen hnone
    cases i with
    | zero =>
      have hvs : 0 < vs.length := by simpa using hlen
      cases vs with
      | nil => simp at hvs
      | cons w ws =>
        have hw : w = none := by simpa using hnone
        subst hw
        cases v <;> simp [ffillCol]
    | succ i =>
      have hlen' : i + 1 < vs.length := by simpa using hlen
      have hnone' : vs.getD (i + 1) none = none := by simpa using hnone
      cases v <;> simp only [ffillCol, List.getD_cons_succ] <;> exact ih _ i hlen' hnone'

theorem ffill_getD_all_none : ∀ (vs : List (Option Int)) (last : Option Int) (i : Nat),
    i < vs.length → (∀ j, j ≤ i → vs.getD j none = none) →
    (ffillCol last vs).getD i none = last := by
  intro vs
  induction vs with
  | nil => intro last i h _; simp at h
  | cons v vs ih =>
    intro last i hlen hall
    have hv : v = none := by simpa using hall 0 (Nat.zero_le i)
    subst hv
    cases i with
    | zero => simp [ffillCol]
    | succ i =>
      have hlen' : i < vs.length := by simpa using hlen
      have hall' : ∀ j, j ≤ i → vs.getD j none = none := fun j hj => by
        simpa using hall (j + 1) (Nat.succ_le_succ hj)
      simp only [ffillCol, List.getD_cons_succ]
      exact ih last i hlen' hall'

theorem ffill_mem : ∀ (vs : List (Option Int)) (last v : Option Int),
    v ∈ ffillCol last vs → v = last ∨ v ∈ vs := by
  intro vs
  induction vs with
  | nil => intro last v h; simp [ffillCol] at h
  | cons w ws ih =>
    intro last v h
    cases w with
    | some x =>
      simp only [ffillCol, List.mem_cons] at h
      rcases h with h | h
      · right; simp [h]
      · rcases ih (some x) v h with h1 | h1
        · right; simp [h1]
        · right; exact List.mem_cons_of_mem _ h1
    | none =>
      simp only [ffillCol, List.mem_cons] at h
      rcases h with h | h
      · left; exact h
      · rcases ih last v h with h1 | h1
        · left; exact h1
        · right; exact List.mem_cons_of_mem _ h1

/-! ### Helper lemmas about filtering and aggregation -/

theorem after2025_iff (r : Row) :
    after2025 r = true ↔ ∃ d, r.Date_reported = some d ∧ cutoff2025 ≤ d := by
  unfold after2025
  cases hd : r.Date_reported with
  | none => simp
  | some d => simp

theorem colValues_length_of_all {f : Row → Option Int} :
    ∀ (s : List Row), (∀ r ∈ s, (f r).isSome = true) →
      (colValues f s).length = s.length := by
  intro s
  induction s with
  | nil => intro _; rfl
  | cons r rs ih =>
    intro h
    have hr := h r (List.mem_cons_self r rs)
    rcases Option.isSome_iff_exists.mp hr with ⟨x, hx⟩
    have hall : ∀ a ∈ rs, (f a).isSome = true :=
      fun a ha => h a (List.mem_cons_of_mem r ha)
    have ihr := ih hall
    simp only [colValues, List.filterMap_cons, hx, List.length_cons]
    rw [show List.filterMap f rs = colValues f rs from rfl, ihr]

theorem colValues_sum_of_all {f : Row → Option Int} :
    ∀ (s : List Row), (∀ r ∈ s, (f r).isSome = true) →
      (((colValues f s).sum : Int) : ℚ)
        = (s.map (fun r => (((f r).getD 0 : Int) : ℚ))).sum := by
  intro s
  induction s with
  | nil => intro _; rfl
  | cons r rs ih =>
    intro h
    have hr := h r (List.mem_cons_self r rs)
    rcases Option.isSome_iff_exists.mp hr with ⟨x, hx⟩
    have ihr := ih (fun a ha => h a (List.mem_cons_of_mem _ ha))
    simp only [colValues, List.filterMap_cons, hx, List.map_cons, List.sum_cons]
    push_cast
    rw [← ihr]
    simp [colValues]

theorem sum_map_ite (c : String) (x : ℚ) (S : String → ℚ) :
    ∀ (keys : List String), keys.Nodup → c ∈ keys →
      (keys.map (fun g => if c == g then x + S g else S g)).sum
        = x + (keys.map S).sum := by
  intro keys
  induction keys with
  | nil => intro _ h; simp at h
  | cons g ks ih =>
    intro hnd hc
    by_cases hcg : c = g
    · subst hcg
      have hnot : c ∉ ks := (List.nodup_cons.mp hnd).1
      have htail : (ks.map (fun g' => if c == g' then x + S g' else S g')).sum
          = (ks.map S).sum := by
        have hcong : ∀ a ∈ ks, (if c == a then x + S a else S a) = S a := fun a ha => by
          have hne : ¬ (c = a) := fun he => hnot (he ▸ ha)
          simp [hne]
        rw [List.map_congr_left hcong]
      simp only [List.map_cons, List.sum_cons, beq_self_eq_true, if_true, htail]
      ring
    · have hc' : c ∈ ks := by
        rcases List.mem_cons.mp hc with h | h
        · exact absurd h hcg
        · exact h
      have hnd' := (List.nodup_cons.mp hnd).2
      have hne : (c == g) = false := by simp [hcg]
      simp only [List.map_cons, List.sum_cons, hne, Bool.false_eq_true, if_false]
      rw [ih hnd' hc']
      ring

theorem sum_filter_partition (w : Row → ℚ) :
    ∀ (t : List Row) (keys : List String), keys.Nodup →
      (∀ r ∈ t, r.WHO_region ∈ keys) →
      (keys.map (fun g => ((t.filter (fun r => r.WHO_region == g)).map w).sum)).sum
        = (t.map w).sum := by
  intro t
  induction t with
  | nil => intro keys _ _; simp
  | cons r rest ih =>
    intro keys hnd hcov
    have hr : r.WHO_region ∈ keys := hcov r (List.mem_cons_self _ _)
    have hcov' : ∀ a ∈ rest, a.WHO_region ∈ keys :=
      fun a ha => hcov a (List.mem_cons_of_mem _ ha)
    have hstep : ∀ g ∈ keys,
        (((r :: rest).filter (fun a => a.WHO_region == g)).map w).sum
          = if r.WHO_region == g
            then w r + ((rest.filter (fun a => a.WHO_region == g)).map w).sum
            else ((rest.filter (fun a => a.WHO_region == g)).map w).sum := by
      intro g _
      by_cases h : r.WHO_region = g
      · simp [List.filter_cons, h]
      · simp [List.filter_cons, h]
    rw [List.map_congr_left hstep]
    rw [sum_map_ite r.WHO_region (w r)
      (fun g => ((rest.filter (fun a => a.WHO_region == g)).map w).sum) keys hnd hr]
    rw [ih keys hnd hcov']
    simp

/-! ### Claims -/

/-- Claim C1: for every input table, after the cleaning stage completes,
no remaining row has a missing Date_reported or Country_code, and each of
the four numeric fields (New_cases, New_deaths, Cumulative_cases,
Cumulative_deaths) contains no missing value in any remaining row. -/
theorem spec_C1 (t : List Row) (r : Row) (hr : r ∈ cleanData t) :
    r.Date_reported.isSome = true ∧ r.Country_code.isSome = true ∧
    ∀ f : NumField, (f.get r).isSome = true := by
  refine ⟨?_, ?_, ?_⟩
  · have hm : r.Date_reported ∈ (cleanData t).map Row.Date_reported :=
      List.mem_map_of_mem _ hr
    rw [map_cleanData_date] at hm
    rcases List.mem_map.mp hm with ⟨a, ha, he⟩
    simp only [dropMissingKeys, List.mem_filter, Bool.and_eq_true] at ha
    rw [← he]
    exact ha.2.1
  · have hm : r.Country_code ∈ (cleanData t).map Row.Country_code :=
      List.mem_map_of_mem _ hr
    rw [map_cleanData_code] at hm
    rcases List.mem_map.mp hm with ⟨a, ha, he⟩
    simp only [dropMissingKeys, List.mem_filter, Bool.and_eq_true] at ha
    rw [← he]
    exact ha.2.2
  · intro f
    have hm : f.get r ∈ (cleanData t).map f.get := List.mem_map_of_mem _ hr
    rw [map_cleanData] at hm
    rcases List.mem_map.mp hm with ⟨o, _, he⟩
    rw [← he]
    rfl

/-- Witness for C1 at a concrete table: the first surviving row of tWit
keeps its date and code and a filled New_cases value. -/
theorem spec_C1_witness :
    rowKE.Date_reported.isSome = true ∧ rowKE.Country_code.isSome = true ∧
    (NumField.New_cases.get rowKE).isSome = true := by
  have h := spec_C1 tWit rowKE (by decide)
  exact ⟨h.1, h.2.1, h.2.2 .New_cases⟩

/-- Claim C2: for every input table and each of the four numeric columns,
a value missing at series position i with a valid value at position i-1
(positions in the series the fill runs over, i.e. the rows surviving the
key drop) is cleaned to the value at i-1, and a missing value with no
prior valid value is cleaned to 0. -/
theorem spec_C2 (t : List Row) (f : NumField) (i : Nat) :
    (∀ x : Int, i + 1 < (dropMissingKeys t).length →
      f.get ((dropMissingKeys t).getD (i + 1) default) = none →
      f.get ((dropMissingKeys t).getD i default) = some x →
      f.get ((cleanData t).getD (i + 1) default) = some x) ∧
    (i < (dropMissingKeys t).length →
      (∀ j, j ≤ i → f.get ((dropMissingKeys t).getD j default) = none) →
      f.get ((cleanData t).getD i default) = some 0) := by
  constructor
  · intro x hlen hmiss hprev
    have hcol1 : ((dropMissingKeys t).map f.get).getD (i + 1) none = none := by
      rw [getD_map_lt f.get _ (i + 1) hlen none default]; exact hmiss
    have hcol0 : ((dropMissingKeys t).map f.get).getD i none = some x := by
      rw [getD_map_lt f.get _ i (Nat.lt_of_succ_lt hlen) none default]; exact hprev
    have hstep := ffill_getD_step ((dropMissingKeys t).map f.get) none i
      (by simpa using hlen) hcol1
    have hsome := ffill_getD_some ((dropMissingKeys t).map f.get) none i x hcol0
    have hval : (ffillCol none ((dropMissingKeys t).map f.get)).getD (i + 1) none
        = some x := by rw [hstep, hsome]
    have hlt : i + 1 < (cleanData t).length := by
      rw [cleanData_length]; exact hlen
    have hlt2 : i + 1 < (ffillCol none ((dropMissingKeys t).map f.get)).length := by
      rw [ffill_length]; simpa using hlen
    calc f.get ((cleanData t).getD (i + 1) default)
        = ((cleanData t).map f.get).getD (i + 1) none :=
          (getD_map_lt f.get _ (i + 1) hlt none default).symm
      _ = ((ffillCol none ((dropMissingKeys t).map f.get)).map
            (fun o => some (o.getD 0))).getD (i + 1) none := by rw [map_cleanData]
      _ = some (((ffillCol none ((dropMissingKeys t).map f.get)).getD (i + 1) none).getD 0) :=
          getD_map_lt _ _ (i + 1) hlt2 none none
      _ = some x := by rw [hval]; rfl
  · intro hlen hall
    have hcols : ∀ j, j ≤ i → ((dropMissingKeys t).map f.get).getD j none = none := by
      intro j hj
      rw [getD_map_lt f.get _ j (Nat.lt_of_le_of_lt hj hlen) none default]
      exact hall j hj
    have hnone := ffill_getD_all_none ((dropMissingKeys t).map f.get) none i
      (by simpa using hlen) hcols
    have hlt : i < (cleanData t).length := by
      rw [cleanData_length]; exact hlen
    have hlt2 : i < (ffillCol none ((dropMissingKeys t).map f.get)).length := by
      rw [ffill_length]; simpa using hlen
    calc f.get ((cleanData t).getD i default)
        = ((cleanData t).map f.get).getD i none :=
          (getD_map_lt f.get _ i hlt none default).symm
      _ = ((ffillCol none ((dropMissingKeys t).map f.get)).map
            (fun o => some (o.getD 0))).getD i none := by rw [map_cleanData]
      _ = some (((ffillCol none ((dropMissingKeys t).map f.get)).getD i none).getD 0) :=
          getD_map_lt _ _ i hlt2 none none
      _ = some 0 := by rw [hnone]; rfl

/-- Witness for C2: in tWit the gap at series position 1 is filled with the
value 5 of position 0, and in tZero the leading gap is filled with 0. -/
theorem spec_C2_witness :
    NumField.New_cases.get ((cleanData tWit).getD 1 default) = some 5 ∧
    NumField.New_cases.get ((cleanData tZero).getD 0 default) = some 0 := by
  refine ⟨(spec_C2 tWit .New_cases 0).1 5 (by decide) (by decide) (by decide), ?_⟩
  refine (spec_C2 tZero .New_cases 0).2 (by decide) ?_
  intro j hj
  have h0 := Nat.le_zero.mp hj
  subst h0
  decide

/-- Claim C6 counterexample: on tNeg, a well-keyed table carrying
New_cases = -1, cleaning keeps the negative value, so the cleaned numeric
fields are not all non-negative. -/
theorem spec_C6_counterexample :
    ¬ ∀ r ∈ cleanData tNeg, ∀ f : NumField, 0 ≤ (f.get r).getD 0 := by
  decide

/-- Claim C6 as amended: after cleaning every remaining row holds a value
(never a missing one) in each of the four numeric fields, and those values
are non-negative provided every value present in the input is non-negative
(the code itself never enforces non-negativity). -/
theorem spec_C6_amended (t : List Row)
    (hpos : ∀ r ∈ t, ∀ f : NumField, 0 ≤ (f.get r).getD 0) :
    ∀ r ∈ cleanData t, ∀ f : NumField,
      (f.get r).isSome = true ∧ 0 ≤ (f.get r).getD 0 := by
  intro r hr f
  have hm : f.get r ∈ (cleanData t).map f.get := List.mem_map_of_mem _ hr
  rw [map_cleanData] at hm
  rcases List.mem_map.mp hm with ⟨o, ho, he⟩
  constructor
  · rw [← he]; rfl
  · rw [← he]
    show (0 : Int) ≤ o.getD 0
    rcases ffill_mem _ _ _ ho with h0 | hmem
    · subst h0; exact le_refl 0
    · rcases List.mem_map.mp hmem with ⟨a, ha, he2⟩
      have hat : a ∈ t := List.mem_of_mem_filter ha
      have hp := hpos a hat f
      rw [he2] at hp
      exact hp

/-- Witness for the amended C6 at a concrete non-negative table. -/
theorem spec_C6_witness :
    (NumField.New_cases.get rowKE).isSome = true ∧
    0 ≤ (NumField.New_cases.get rowKE).getD 0 :=
  spec_C6_amended tWit (by decide) rowKE (by decide) .New_cases

/-- Claim C10: cleaning removes exactly the rows whose date or country
code is missing, preserves the relative order of the kept rows, and leaves
every field of a kept row unchanged except the four numeric fields, which
change only where they were missing (the date field, modelled as a day
number, is value-preserved by the to_datetime conversion). -/
theorem spec_C10 (t : List Row) :
    List.Sublist (dropMissingKeys t) t ∧
    (∀ r, r ∈ dropMissingKeys t ↔
      r ∈ t ∧ r.Date_reported.isSome = true ∧ r.Country_code.isSome = true) ∧
    (cleanData t).length = (dropMissingKeys t).length ∧
    ∀ i, i < (dropMissingKeys t).length →
      ((cleanData t).getD i default).Date_reported
          = ((dropMissingKeys t).getD i default).Date_reported ∧
      ((cleanData t).getD i default).Country_code
          = ((dropMissingKeys t).getD i default).Country_code ∧
      ((cleanData t).getD i default).Country
          = ((dropMissingKeys t).getD i default).Country ∧
      ((cleanData t).getD i default).WHO_region
          = ((dropMissingKeys t).getD i default).WHO_region ∧
      ∀ (f : NumField) (x : Int),
        f.get ((dropMissingKeys t).getD i default) = some x →
        f.get ((cleanData t).getD i default) = some x := by
  refine ⟨List.filter_sublist t, ?_, cleanData_length t, ?_⟩
  · intro r
    simp [dropMissingKeys, List.mem_filter, Bool.and_eq_true]
  · intro i hi
    have hi' : i < (cleanData t).length := by rw [cleanData_length]; exact hi
    refine ⟨?_, ?_, ?_, ?_, ?_⟩
    · calc ((cleanData t).getD i default).Date_reported
          = ((cleanData t).map Row.Date_reported).getD i none :=
            (getD_map_lt _ _ i hi' none default).symm
        _ = ((dropMissingKeys t).map Row.Date_reported).getD i none := by
            rw [map_cleanData_date]
        _ = ((dropMissingKeys t).getD i default).Date_reported :=
            getD_map_lt _ _ i hi none default
    · calc ((cleanData t).getD i default).Country_code
          = ((cleanData t).map Row.Country_code).getD i none :=
            (getD_map_lt _ _ i hi' none default).symm
        _ = ((dropMissingKeys t).map Row.Country_code).getD i none := by
            rw [map_cleanData_code]
        _ = ((dropMissingKeys t).getD i default).Country_code :=
            getD_map_lt _ _ i hi none default
    · calc ((cleanData t).getD i default).Country
          = ((cleanData t).map Row.Country).getD i "" :=
            (getD_map_lt _ _ i hi' "" default).symm
        _ = ((dropMissingKeys t).map Row.Country).getD i "" := by
            rw [map_cleanData_country]
        _ = ((dropMissingKeys t).getD i default).Country :=
            getD_map_lt _ _ i hi "" default
    · calc ((cleanData t).getD i default).WHO_region
          = ((cleanData t).map Row.WHO_region).getD i "" :=
            (getD_map_lt _ _ i hi' "" default).symm
        _ = ((dropMissingKeys t).map Row.WHO_region).getD i "" := by
            rw [map_cleanData_region]
        _ = ((dropMissingKeys t).getD i default).WHO_region :=
            getD_map_lt _ _ i hi "" default
    · intro f x hx
      have hcol : ((dropMissingKeys t).map f.get).getD i none = some x := by
        rw [getD_map_lt f.get _ i hi none default]; exact hx
      have hval := ffill_getD_some ((dropMissingKeys t).map f.get) none i x hcol
      have hlt2 : i < (ffillCol none ((dropMissingKeys t).map f.get)).length := by
        rw [ffill_length]; simpa using hi
      calc f.get ((cleanData t).getD i default)
          = ((cleanData t).map f.get).getD i none :=
            (getD_map_lt f.get _ i hi' none default).symm
        _ = ((ffillCol none ((dropMissingKeys t).map f.get)).map
              (fun o => some (o.getD 0))).getD i none := by rw [map_cleanData]
        _ = some (((ffillCol none ((dropMissingKeys t).map f.get)).getD i none).getD 0) :=
            getD_map_lt _ _ i hlt2 none none
        _ = some x := by rw [hval]; rfl

/-- Witness for C10 at tWit: order preservation, an untouched Country
field, and a present numeric value carried over unchanged. -/
theorem spec_C10_witness :
    List.Sublist (dropMissingKeys tWit) tWit ∧
    ((cleanData tWit).getD 0 default).Country
        = ((dropMissingKeys tWit).getD 0 default).Country ∧
    NumField.New_deaths.get ((cleanData tWit).getD 1 default) = some 3 := by
  have h := spec_C10 tWit
  exact ⟨h.1, (h.2.2.2 0 (by decide)).2.2.1,
    (h.2.2.2 1 (by decide)).2.2.2.2 .New_deaths 3 (by decide)⟩

/-- Claim C5: every row used in the aggregation stage's statistics and
group-wise aggregates has a report date at or after the fixed cutoff
2025-01-01.  All Task 2 aggregates (describe, the region table, the
country top-10) are computed from recent_df, and Task 3 works on viz_df,
both obtained by the same date filter. -/
theorem spec_C5 (t : List Row) (r : Row) :
    (r ∈ recent_df t → ∃ d, r.Date_reported = some d ∧ cutoff2025 ≤ d) ∧
    (r ∈ viz_df t → ∃ d, r.Date_reported = some d ∧ cutoff2025 ≤ d) :=
  ⟨fun hr => (after2025_iff r).mp (List.mem_filter.mp hr).2,
   fun hr => (after2025_iff r).mp (List.mem_filter.mp hr).2⟩

/-- Witness for C5: the only row of dfSmall is in the filtered window and
its date is on or after the cutoff. -/
theorem spec_C5_witness :
    rowKE.Date_reported = some 20100 ∧ cutoff2025 ≤ (20100 : Int) := by
  rcases (spec_C5 dfSmall rowKE).1 (by decide) with ⟨d, hd, hle⟩
  have h20 : rowKE.Date_reported = some 20100 := rfl
  rw [h20] at hd
  have he := Option.some.inj hd
  subst he
  exact ⟨h20, hle⟩

/-- Claim C7: the per-country aggregate is the mean of Cumulative_deaths
grouped by Country, its entries are sorted in descending order of that
mean, at most 10 entries are reported, and every reported entry dominates
every entry that was cut off (so the 10 are a top-10). -/
theorem spec_C7 (t : List Row) :
    (country_deaths t).length ≤ 10 ∧
    List.Sorted cdGE (country_deaths t) ∧
    (∀ p ∈ country_deaths t,
      p.1 ∈ countryKeys t ∧
      p.2 = colMean Row.Cumulative_deaths (groupByCountry t p.1)) ∧
    ∀ p ∈ country_deaths t, ∀ q ∈ (countryMeansSorted t).drop 10, q.2 ≤ p.2 := by
  have hsorted : List.Sorted cdGE (countryMeansSorted t) :=
    List.sorted_insertionSort cdGE _
  refine ⟨?_, ?_, ?_, ?_⟩
  · show ((countryMeansSorted t).take 10).length ≤ 10
    rw [List.length_take]
    exact min_le_left _ _
  · exact List.Pairwise.sublist (List.take_sublist 10 _) hsorted
  · intro p hp
    have hp1 : p ∈ countryMeansSorted t := List.take_subset _ _ hp
    have hp2 : p ∈ countryMeans t :=
      (List.perm_insertionSort cdGE _).mem_iff.mp hp1
    rcases List.mem_map.mp hp2 with ⟨c, hc, he⟩
    constructor
    · rw [← he]; exact hc
    · rw [← he]
  · intro p hp q hq
    have hpw := hsorted
    rw [show countryMeansSorted t
        = (countryMeansSorted t).take 10 ++ (countryMeansSorted t).drop 10 from
      (List.take_append_drop 10 _).symm] at hpw
    exact (List.pairwise_append.mp hpw).2.2 p hp q hq

/-- The top-10 list of tCountries, evaluated. -/
theorem country_deaths_tCountries :
    country_deaths tCountries = [("Kenya", (5 : ℚ)), ("Uganda", (2 : ℚ))] := by
  norm_num [country_deaths, countryMeansSorted, countryMeans, countryKeys, tCountries,
    mkRow, groupByCountry, colMean, colValues, List.insertionSort, List.orderedInsert,
    cdGE, List.dedup, List.pwFilter, List.filterMap, List.filter]

/-- Witness for C7 at tCountries: at most ten entries, and the Kenya entry
reports exactly the mean of Kenya's cumulative deaths. -/
theorem spec_C7_witness :
    (country_deaths tCountries).length ≤ 10 ∧
    ("Kenya", (5 : ℚ)).2
      = colMean Row.Cumulative_deaths (groupByCountry tCountries ("Kenya", (5 : ℚ)).1) :=
  ⟨(spec_C7 tCountries).1,
   ((spec_C7 tCountries).2.2.1 ("Kenya", (5 : ℚ))
     (by rw [country_deaths_tCountries]; exact List.mem_cons_self _ _)).2⟩

/-- Claim C8: in every table whose New_cases column has no missing entry
(as holds after cleaning), the sum over WHO regions of the per-region mean
of New_cases weighted by the region's row count, divided by the total row
count, equals the ungrouped New_cases mean, exactly over the rationals. -/
theorem spec_C8 (t : List Row)
    (hall : ∀ r ∈ t, (Row.New_cases r).isSome = true) :
    ((regionKeys t).map
        (fun g => regionMean t g * ((groupByRegion t g).length : ℚ))).sum
      / ((t.length : ℚ))
    = colMean Row.New_cases t := by
  have hterm : ∀ g ∈ regionKeys t,
      regionMean t g * ((groupByRegion t g).length : ℚ)
        = ((groupByRegion t g).map
            (fun r => (((Row.New_cases r).getD 0 : Int) : ℚ))).sum := by
    intro g _
    have hallg : ∀ r ∈ groupByRegion t g, (Row.New_cases r).isSome = true :=
      fun r hr => hall r (List.mem_of_mem_filter hr)
    have hlen := colValues_length_of_all (groupByRegion t g) hallg
    have hsum := colValues_sum_of_all (groupByRegion t g) hallg
    by_cases hzero : (groupByRegion t g).length = 0
    · have hemp : groupByRegion t g = [] := List.length_eq_zero.mp hzero
      simp [regionMean, colMean, colValues, hemp]
    · have hlenne : ((groupByRegion t g).length : ℚ) ≠ 0 :=
        Nat.cast_ne_zero.mpr hzero
      show colMean Row.New_cases (groupByRegion t g) * _ = _
      unfold colMean
      rw [hlen, div_mul_cancel₀ _ hlenne]
      exact hsum
  rw [List.map_congr_left hterm]
  have hpart := sum_filter_partition
    (fun r => (((Row.New_cases r).getD 0 : Int) : ℚ)) t (regionKeys t)
    (List.nodup_dedup _)
    (fun r hr => List.mem_dedup.mpr (List.mem_map_of_mem _ hr))
  rw [show (fun g => ((groupByRegion t g).map
      (fun r => (((Row.New_cases r).getD 0 : Int) : ℚ))).sum)
    = (fun g => ((t.filter (fun r => r.WHO_region == g)).map
      (fun r => (((Row.New_cases r).getD 0 : Int) : ℚ))).sum) from rfl]
  rw [hpart]
  unfold colMean
  rw [colValues_sum_of_all t hall, colValues_length_of_all t hall]

/-- Witness for C8 at tRegions (two regions of sizes 2 and 1). -/
theorem spec_C8_witness :
    ((regionKeys tRegions).map
        (fun g => regionMean tRegions g * ((groupByRegion tRegions g).length : ℚ))).sum
      / ((tRegions.length : ℚ))
    = colMean Row.New_cases tRegions :=
  spec_C8 tRegions (by decide)

/-- Claim C3 is a code bug: the rendering stage does NOT produce four
image files for every dataset.  On a frame whose 2025 window has fewer
than 1000 rows (here: one row), viz_df.sample(1000) raises ValueError
before the fourth savefig, the zone's except handler swallows it, and only
the first three images are on disk.  With a window of at least 1000 rows
all four images are produced. -/
theorem spec_C3_bug :
    vizFiles dfSmall []
        = ["global_cases_line.png", "region_cases_bar.png", "deaths_histogram.png"] ∧
    (vizFiles dfSmall []).length ≠ 4 ∧
    vizFiles dfBig []
        = ["global_cases_line.png", "region_cases_bar.png", "deaths_histogram.png",
           "cases_deaths_scatter.png"] :=
  ⟨by decide, by decide, by decide⟩

/-- Claim C4 counterexample: with acquisition failing, the claim says the
later zones raise a secondary error that is unhandled (not caught by the
script's own guards); in fact no exception escapes either zone's guards. -/
theorem spec_C4_counterexample :
    ¬ (((runScript (Except.error PyExc.requestException) []).task2.uncaught.isSome
          = true) ∨
       ((runScript (Except.error PyExc.requestException) []).task3.uncaught.isSome
          = true)) := by
  decide

/-- Claim C4 as amended: when acquisition fails with a network/HTTP error,
the acquisition zone's RequestException handler (clause 0) reports it and
df stays undefined; the analysis and visualization zones then raise a
secondary NameError which IS caught by each zone's generic 'except
Exception' guard (clause 0), producing no result; nothing goes unhandled
and the script runs to completion. -/
theorem spec_C4_amended (rng : List Nat) :
    (runScript (Except.error PyExc.requestException) rng).task1.caughtBy = some 0 ∧
    (runScript (Except.error PyExc.requestException) rng).dfDefined = false ∧
    (runScript (Except.error PyExc.requestException) rng).task2.result = none ∧
    (runScript (Except.error PyExc.requestException) rng).task2.caughtBy = some 0 ∧
    (runScript (Except.error PyExc.requestException) rng).task2.uncaught = none ∧
    (runScript (Except.error PyExc.requestException) rng).task3.caughtBy = some 0 ∧
    (runScript (Except.error PyExc.requestException) rng).task3.uncaught = none :=
  ⟨rfl, rfl, rfl, rfl, rfl, rfl, rfl⟩

/-- Claim C9: for a fixed cleaned frame, the analysis outputs (describe
statistics, region table, top-10 countries) are a deterministic function
of the frame, identical across runs whatever the random stream does; the
scatter plot's unseeded 1000-row sample, by contrast, does change with
the stream. -/
theorem spec_C9 :
    (∀ (df : List Row) (r1 r2 : List Nat),
      (runPipeline df r1).1 = (runPipeline df r2).1) ∧
    ∃ (df : List Row) (r1 r2 : List Nat),
      (runPipeline df r1).2 ≠ (runPipeline df r2).2 :=
  ⟨fun _ _ _ => rfl, ⟨dfBig, [], [1], by decide⟩⟩

end Covid
